import Mathlib

/-!
Verification of the `conjure` survey-import core (`conjure/input_data.py` and
`conjure/question_error_logger.py`).

The central object is `InputDataABC`: a batch of survey questions kept as
parallel arrays (`question_names`, `question_texts`, `question_types`,
`question_options`, `raw_data`) plus an `answer_codebook` and a
session-scoped error log.  We embed the batch as a Lean structure and each
editing operation (`rename`, `drop`, `keep`, `select`,
`modify_question_type`, `apply_codebook`, the constructor validation) as an
executable function translated line-by-line from the Python source.

Python dictionaries are embedded as association lists with unique keys
(`dictGet` / `dictSet` / `dictPop` mirror `d[k]`, `d[k] = v`, `d.pop(k)`).
Methods that mutate `self` and may raise are embedded as functions
returning `InputData × Option String`: the final object state paired with
the raised exception message, if any (the Python object survives a raise,
so the state component is meaningful on both paths).  The constructor,
which either produces an object or raises before one exists, returns
`Except String InputData`.

External collaborators that are not part of this repository's source
(`edsl`'s question registry and `RawQuestion.to_question`) enter as
parameters (`available : List String`, `toQ : RawQuestion → Option Q`).
-/

namespace Conjure

/-- One entry of the session-scoped question-error log
(`QuestionErrorLogger.errors`); the Python entry also carries a wall-clock
timestamp, which we omit. -/
structure ErrorEntry where
  question_name : String
  error_type : String
  details : String
  exception : Option String
deriving Repr, DecidableEq, Inhabited

/-- A Python `dict` as an association list with unique keys. -/
abbrev Dict (V : Type) := List (String × V)

/-- `answer_codebook : question_name → (raw value → canonical value)`. -/
abbrev Codebook := Dict (Dict String)

/-- `d[k]` / `d.get(k)`: value stored under `k`, if any. -/
def dictGet {V : Type} (k : String) : Dict V → Option V
  | [] => none
  | (k', v') :: rest => if k' = k then some v' else dictGet k rest

/-- `d[k] = v`: replace the value in place if the key exists, else append. -/
def dictSet {V : Type} (k : String) (v : V) : Dict V → Dict V
  | [] => [(k, v)]
  | (k', v') :: rest => if k' = k then (k, v) :: rest else (k', v') :: dictSet k v rest

/-- `d.pop(k, default)`'s removal effect: drop the entry stored under `k`. -/
def dictPop {V : Type} (k : String) : Dict V → Dict V
  | [] => []
  | (k', v') :: rest => if k' = k then rest else (k', v') :: dictPop k rest

/-- The batch of parallel per-question arrays held by `InputDataABC`.
`question_options` entries are `none` when the Python list holds `None`. -/
structure InputData where
  question_names : List String
  question_texts : List String
  question_types : List String
  question_options : List (Option (List String))
  raw_data : List (List String)
  answer_codebook : Codebook
  question_names_to_question_text : Option (Dict String)
  errorLog : List ErrorEntry
deriving Repr, DecidableEq, Inhabited

/-- The lock-step invariant: all parallel arrays have the same length. -/
def InputData.wf (b : InputData) : Prop :=
  b.question_texts.length = b.question_names.length ∧
  b.question_types.length = b.question_names.length ∧
  b.question_options.length = b.question_names.length ∧
  b.raw_data.length = b.question_names.length

instance (b : InputData) : Decidable b.wf := by
  unfold InputData.wf; infer_instance

/-- The `RawQuestion` tuple assembled by `InputDataABC.raw_question`. -/
structure RawQuestion where
  question_type : String
  question_name : String
  question_text : String
  responses : List String
  question_options : Option (List String)
deriving Repr, DecidableEq, Inhabited

/-- `InputDataABC.raw_question(index)`: package the parallel-array entries at
`index`, preferring a case-insensitive `question_names_to_question_text`
lookup for the text when that mapping is present. -/
def InputData.raw_question (b : InputData) (index : Nat) : RawQuestion :=
  let qn := b.question_names.getD index ""
  let qt :=
    match b.question_names_to_question_text with
    | some m =>
      match dictGet qn.toLower m with
      | some t => t
      | none => b.question_texts.getD index ""
    | none => b.question_texts.getD index ""
  { question_type := b.question_types.getD index ""
    question_name := qn
    question_text := qt
    responses := b.raw_data.getD index []
    question_options := b.question_options.getD index none }

/-- `InputDataABC.rename(old_name, new_name, ignore_missing)`:
missing name either raises `ValueError` or (with the flag) is a no-op;
otherwise the name is replaced in place and
`answer_codebook[new_name] = answer_codebook.pop(old_name, {})`. -/
def InputData.rename (b : InputData) (old_name new_name : String)
    (ignore_missing : Bool) : InputData × Option String :=
  if old_name ∈ b.question_names then
    let idx := b.question_names.indexOf old_name
    let moved := (dictGet old_name b.answer_codebook).getD []
    ({ b with
        question_names := b.question_names.set idx new_name
        answer_codebook :=
          dictSet new_name moved (dictPop old_name b.answer_codebook) },
      none)
  else if ignore_missing then (b, none)
  else (b, some ("Question " ++ old_name ++ " not found."))

/-- `InputDataABC.rename_questions(rename_dict, ignore_missing)`: apply
`rename` entry by entry; a raise aborts the remaining iterations. -/
def InputData.rename_questions (b : InputData)
    (rename_dict : List (String × String)) (ignore_missing : Bool) :
    InputData × Option String :=
  match rename_dict with
  | [] => (b, none)
  | (old_name, new_name) :: rest =>
    match b.rename old_name new_name ignore_missing with
    | (b', none) => b'.rename_questions rest ignore_missing
    | (b', some e) => (b', some e)

/-- `InputDataABC._drop_question(question_name, ignore_missing)`: remove the
entry at the name's index from every parallel array and pop the codebook
entry; a missing name raises unless the flag is set. -/
def InputData.drop_question (b : InputData) (question_name : String)
    (ignore_missing : Bool) : InputData × Option String :=
  if question_name ∈ b.question_names then
    let idx := b.question_names.indexOf question_name
    ({ b with
        question_names := b.question_names.eraseIdx idx
        question_texts := b.question_texts.eraseIdx idx
        question_types := b.question_types.eraseIdx idx
        question_options := b.question_options.eraseIdx idx
        raw_data := b.raw_data.eraseIdx idx
        answer_codebook := dictPop question_name b.answer_codebook },
      none)
  else if ignore_missing then (b, none)
  else (b, some ("Question " ++ question_name ++ " not found."))

/-- `InputDataABC.drop(*question_names_to_drop)`: drop each name in turn
with no ignore-missing flag; a raise aborts the remaining iterations. -/
def InputData.drop (b : InputData) (question_names_to_drop : List String) :
    InputData × Option String :=
  match question_names_to_drop with
  | [] => (b, none)
  | qn :: rest =>
    match b.drop_question qn false with
    | (b', none) => b'.drop rest
    | (b', some e) => (b', some e)

/-- The loop body of `InputDataABC.keep`: iterate over a snapshot of the
original names, dropping each one not in the kept set. -/
def InputData.keepGo (toKeep : List String) (ignore_missing : Bool) :
    List String → InputData → InputData × Option String
  | [], b => (b, none)
  | qn :: rest, b =>
    if qn ∈ toKeep then InputData.keepGo toKeep ignore_missing rest b
    else
      match b.drop_question qn ignore_missing with
      | (b', none) => InputData.keepGo toKeep ignore_missing rest b'
      | (b', some e) => (b', some e)

/-- `InputDataABC.keep(*question_names_to_keep, ignore_missing)`. -/
def InputData.keep (b : InputData) (question_names_to_keep : List String)
    (ignore_missing : Bool) : InputData × Option String :=
  InputData.keepGo question_names_to_keep ignore_missing b.question_names b

/-- The error-log entry appended by `modify_question_type` on assembly
failure. -/
def modFailEntry (question_name new_type : String) (exception : String) :
    ErrorEntry :=
  { question_name := question_name
    error_type := "Question Type Modification Failed"
    details := "Failed to modify question type to '" ++ new_type ++
      "'. Too few question options. Reverting changes."
    exception := some exception }

/-- The array mutations performed by `modify_question_type` before it tries
to re-assemble the question: set the new type, clear the options when
`drop_options` is set, overwrite them when `new_options` is given. -/
def InputData.mutateTypeOptions (b : InputData) (question_name new_type : String)
    (drop_options : Bool) (new_options : Option (List String)) : InputData :=
  let idx := b.question_names.indexOf question_name
  let opts1 := if drop_options then b.question_options.set idx none
               else b.question_options
  let opts2 := match new_options with
               | some o => opts1.set idx (some o)
               | none => opts1
  { b with
      question_types := b.question_types.set idx new_type
      question_options := opts2 }

/-- `InputDataABC.modify_question_type`: validate the new type against the
registry (`available`, the external `Question.available()`), mutate the
arrays, try to re-assemble the question (`toQ`, the external
`RawQuestion.to_question`), and on failure log one error and revert the
type and options to their prior values. -/
def InputData.modify_question_type {Q : Type}
    (available : List String) (toQ : RawQuestion → Option Q)
    (b : InputData) (question_name new_type : String)
    (drop_options : Bool) (new_options : Option (List String)) :
    InputData × Option String :=
  if question_name ∈ b.question_names then
    let idx := b.question_names.indexOf question_name
    let old_type := b.question_types.getD idx ""
    let old_options := b.question_options.getD idx none
    if new_type ∈ available then
      let b1 := b.mutateTypeOptions question_name new_type drop_options new_options
      match toQ (b1.raw_question idx) with
      | some _ => (b1, none)
      | none =>
        ({ b1 with
            question_types := b1.question_types.set idx old_type
            question_options := b1.question_options.set idx old_options
            errorLog := b1.errorLog ++
              [modFailEntry question_name new_type "to_question raised"] },
          none)
    else (b, some ("Question type " ++ new_type ++ " is not available."))
  else (b, some ("'" ++ question_name ++ "' is not in list"))

/-- `InputDataABC.apply_codebook`: for each question with a codebook entry,
replace each response by its exact-match substitution, leaving unmapped
responses unchanged.  Columns beyond the names list are untouched. -/
def applyCodebook (cb : Codebook) : List String → List (List String) → List (List String)
  | [], cols => cols
  | _ :: _, [] => []
  | qn :: ns, col :: cols =>
    (match dictGet qn cb with
     | some m => col.map (fun r => (dictGet r m).getD r)
     | none => col) :: applyCodebook cb ns cols

/-- Python `set(ks) == set(ns)` on two lists of strings. -/
def sameKeySet (ks ns : List String) : Bool :=
  decide ((∀ k ∈ ks, k ∈ ns) ∧ (∀ n ∈ ns, n ∈ ks))

/-- The validation/repair loop of the `question_names` setter, run only when
the names are derived from the data file: an invalid name is repaired once;
a still-invalid repaired name raises.  (`valid` stands for the external
`is_valid_variable_name`, `repair` for `question_name_repair_func`.) -/
def repairNames (valid : String → Bool) (repair : String → String) :
    List String → Except String (List String)
  | [] => .ok []
  | qn :: rest =>
    if valid qn then
      match repairNames valid repair rest with
      | .ok l => .ok (qn :: l)
      | .error e => .error e
    else
      let new_name := repair qn
      if valid new_name then
        match repairNames valid repair rest with
        | .ok l => .ok (new_name :: l)
        | .error e => .error e
      else
        .error ("Question names must be valid Python identifiers. '" ++ qn ++
          "' is not.")

/-- The `question_names` setter: provided names are stored as given; derived
names (argument `None`) are checked for uniqueness and then
validated/repaired one by one. -/
def resolveQuestionNames (valid : String → Bool) (repair : String → String)
    (arg : Option (List String)) (derived : List String) :
    Except String (List String) :=
  match arg with
  | some v => .ok v
  | none =>
    if derived.dedup.length ≠ derived.length then
      .error "Question names must be unique."
    else repairNames valid repair derived

/-- The codebook-keys-versus-question-names check of `__init__`, performed
only when both arguments are provided. -/
def codebookKeysError (answer_codebook_arg : Option Codebook)
    (question_names_arg : Option (List String)) : Option String :=
  match answer_codebook_arg, question_names_arg with
  | some cb, some qns =>
    if sameKeySet (cb.map (·.1)) qns then none
    else some "The keys of the answer_codebook must match the question_names."
  | _, _ => none

/-- The names/texts length check of `__init__`, performed only when both
arguments are provided. -/
def namesTextsLengthError (question_names_arg question_texts_arg :
    Option (List String)) : Option String :=
  match question_names_arg, question_texts_arg with
  | some ns, some ts =>
    if ns.length = ts.length then none
    else some "The question_names and question_texts must have the same length."
  | _, _ => none

/-- `InputDataABC.__init__`, restricted to the fields the core manipulates.
`getQuestionNames` / `getQuestionTexts` / `getRawData` stand for the
abstract methods the file-reader subclass implements; they are consulted
only when the corresponding argument is `none`.  `question_types` and
`question_options` are taken as already-resolved lists (the inference
modules that fill them when absent are separate from this file).
Validation order follows the source: codebook-keys check, then
names/texts length check, then the names setter, then `apply_codebook`. -/
def mkInputData (valid : String → Bool) (repair : String → String)
    (getQuestionNames getQuestionTexts : List String)
    (getRawData : List (List String))
    (question_names_arg question_texts_arg : Option (List String))
    (question_names_to_question_text : Option (Dict String))
    (answer_codebook_arg : Option Codebook)
    (question_types : List String)
    (question_options : List (Option (List String)))
    (raw_data_arg : Option (List (List String))) :
    Except String InputData :=
  match codebookKeysError answer_codebook_arg question_names_arg with
  | some e => .error e
  | none =>
    match namesTextsLengthError question_names_arg question_texts_arg with
    | some e => .error e
    | none =>
      let texts := question_texts_arg.getD getQuestionTexts
      match resolveQuestionNames valid repair question_names_arg
          getQuestionNames with
      | .error e => .error e
      | .ok names =>
        let cb := answer_codebook_arg.getD []
        let data := raw_data_arg.getD getRawData
        .ok
          { question_names := names
            question_texts := texts
            question_types := question_types
            question_options := question_options
            raw_data := applyCodebook cb names data
            answer_codebook := cb
            question_names_to_question_text := question_names_to_question_text
            errorLog := [] }

/-- The dict comprehension
`{qn: answer_codebook.get(qn, {}) for qn in question_names}` in `select`. -/
def selectCodebook (b : InputData) (qns : List String) : Codebook :=
  qns.foldl (fun acc qn => dictSet qn ((dictGet qn b.answer_codebook).getD []) acc) []

/-- `InputDataABC.select(*question_names)`: look up each requested name's
index (a missing name raises), gather the parallel-array entries in the
order the names were passed, and build a fresh object through the
constructor (which re-validates and re-applies the codebook). -/
def InputData.select (b : InputData) (question_names : List String) :
    Except String InputData :=
  if (∀ qn ∈ question_names, qn ∈ b.question_names) then
    mkInputData (fun _ => true) id [] [] []
      (some ((question_names.map (b.question_names.indexOf ·)).map
        (b.question_names.getD · "")))
      (some ((question_names.map (b.question_names.indexOf ·)).map
        (b.question_texts.getD · "")))
      none
      (some (selectCodebook b question_names))
      ((question_names.map (b.question_names.indexOf ·)).map
        (b.question_types.getD · ""))
      ((question_names.map (b.question_names.indexOf ·)).map
        (b.question_options.getD · none))
      (some ((question_names.map (b.question_names.indexOf ·)).map
        (b.raw_data.getD · [])))
  else .error "value is not in list"

/-- The entry logged by `log_creation_error` when `to_question` raises in
the `questions()` generator. -/
def creationEntry (question_name : String) : ErrorEntry :=
  { question_name := question_name
    error_type := "Creation Failed"
    details := "Failed to create question object"
    exception := some "to_question raised" }

/-- The iteration of `InputDataABC.questions()`: for each name, assemble the
raw question at its index and try `to_question`; a failure yields `none`
and logs one creation error instead of raising. -/
def InputData.questionsGo {Q : Type} (toQ : RawQuestion → Option Q)
    (b : InputData) : List String → List (Option Q) × List ErrorEntry
  | [] => ([], [])
  | qn :: rest =>
    let idx := b.question_names.indexOf qn
    let res := toQ (b.raw_question idx)
    let (outs, errs) := InputData.questionsGo toQ b rest
    match res with
    | some q => (some q :: outs, errs)
    | none => (none :: outs, creationEntry qn :: errs)

/-- `InputDataABC.questions()` materialized: the yielded
`Option`-question list together with the error log after the run. -/
def InputData.questions {Q : Type} (toQ : RawQuestion → Option Q)
    (b : InputData) : List (Option Q) × List ErrorEntry :=
  let (outs, errs) := InputData.questionsGo toQ b b.question_names
  (outs, b.errorLog ++ errs)

/-- `to_survey`'s question list: every non-`None` yield of `questions()`,
in order (failed questions are omitted). -/
def InputData.surveyQuestions {Q : Type} (toQ : RawQuestion → Option Q)
    (b : InputData) : List Q :=
  (InputData.questions toQ b).1.filterMap id

/-- `QuestionErrorLogger.get_error_count`. -/
def getErrorCount (errors : List ErrorEntry) : Nat := errors.length

/-- `QuestionErrorLogger.get_failed_questions`. -/
def getFailedQuestions (errors : List ErrorEntry) : List String :=
  errors.map (·.question_name)

/-- `QuestionErrorLogger.has_errors`. -/
def hasErrors (errors : List ErrorEntry) : Bool := 0 < errors.length

/-- `InputDataABC.NUM_UNIQUE_THRESHOLD`. -/
def NUM_UNIQUE_THRESHOLD : Nat := 15

/-- `InputDataABC.FRAC_NUMERICAL_THRESHOLD`. -/
def FRAC_NUMERICAL_THRESHOLD : ℚ := 8 / 10

/-- `InputDataABC.MULTIPLE_CHOICE_OTHER_THRESHOLD`. -/
def MULTIPLE_CHOICE_OTHER_THRESHOLD : ℚ := 1 / 2

/-- The closed enumeration of inferred question types (spec §3). -/
inductive QuestionType where
  | multiple_choice
  | multiple_choice_with_other
  | numerical
  | checkbox
  | free_text
deriving Repr, DecidableEq, Inhabited

/-- The per-question statistics tuple (`InputDataABC.QuestionStats`). -/
structure QuestionStats where
  num_responses : Nat
  num_unique_responses : Nat
  missing : Nat
  unique_responses : List String
  frac_numerical : ℚ
  top_5 : List (String × Nat)
  frac_obs_from_top_5 : ℚ
deriving Repr, DecidableEq, Inhabited

/-- Modelled from the spec: the type classifier lives in
`question_type_mixin.py`, which is not among the provided source files
(only its caller `input_data.py` and the threshold constants are).
Decision policy per spec §4.3, first match wins: low cardinality
(`num_unique_responses ≤ NUM_UNIQUE_THRESHOLD`) yields `multiple_choice`
or, when top-value coverage is below `MULTIPLE_CHOICE_OTHER_THRESHOLD`,
`multiple_choice_with_other`; otherwise `frac_numerical ≥
FRAC_NUMERICAL_THRESHOLD` yields `numerical`; otherwise `free_text`. -/
def classifyQuestionType (s : QuestionStats) : QuestionType :=
  if s.num_unique_responses ≤ NUM_UNIQUE_THRESHOLD then
    if MULTIPLE_CHOICE_OTHER_THRESHOLD ≤ s.frac_obs_from_top_5 then
      .multiple_choice
    else .multiple_choice_with_other
  else if FRAC_NUMERICAL_THRESHOLD ≤ s.frac_numerical then .numerical
  else .free_text

/-! ### Helper lemmas about the dictionary and list embeddings -/

theorem dictGet_dictSet_self {V : Type} (k : String) (v : V) (d : Dict V) :
    dictGet k (dictSet k v d) = some v := by
  induction d with
  | nil => simp [dictGet, dictSet]
  | cons kv rest ih =>
    by_cases h : kv.1 = k
    · simp [dictSet, dictGet, h]
    · simp [dictSet, dictGet, h, ih]

theorem dictGet_eq_none {V : Type} (k : String) (d : Dict V)
    (h : k ∉ d.map (·.1)) : dictGet k d = none := by
  induction d with
  | nil => rfl
  | cons kv rest ih =>
    simp only [List.map_cons, List.mem_cons, not_or] at h
    have hk : kv.1 ≠ k := fun hc => h.1 hc.symm
    simp [dictGet, hk, ih h.2]

theorem dictGet_dictPop_self {V : Type} (k : String) (d : Dict V)
    (h : (d.map (·.1)).Nodup) : dictGet k (dictPop k d) = none := by
  induction d with
  | nil => simp [dictPop, dictGet]
  | cons kv rest ih =>
    simp only [List.map_cons, List.nodup_cons] at h
    by_cases hk : kv.1 = k
    · subst hk
      simp only [dictPop, if_pos rfl]
      exact dictGet_eq_none _ _ h.1
    · simp only [dictPop, if_neg hk, dictGet, if_neg hk]
      exact ih h.2

theorem getD_indexOf {α : Type} [BEq α] [LawfulBEq α] (l : List α) (a : α)
    (d : α) (h : a ∈ l) : l.getD (l.indexOf a) d = a := by
  induction l with
  | nil => simp at h
  | cons b rest ih =>
    rcases List.mem_cons.mp h with rfl | hmem
    · simp [List.indexOf_cons]
    · by_cases hb : b = a
      · subst hb; simp [List.indexOf_cons]
      · have hba : (b == a) = false := by simp [hb]
        simp only [List.indexOf_cons, hba, cond_false]
        simpa [List.getD] using ih hmem

theorem set_getD_self {α : Type} (l : List α) (i : Nat) (d : α)
    (h : i < l.length) : l.set i (l.getD i d) = l := by
  induction l generalizing i with
  | nil => simp at h
  | cons b rest ih =>
    cases i with
    | zero => simp [List.getD]
    | succ j =>
      simp only [List.length_cons, Nat.succ_lt_succ_iff] at h
      have h2 := ih j h
      simp only [List.getD, List.get?_eq_getElem?] at h2 ⊢
      simp [List.set, h2]

theorem map_eraseIdx {α β : Type} (f : α → β) (l : List α) (i : Nat) :
    (l.map f).eraseIdx i = (l.eraseIdx i).map f := by
  induction l generalizing i with
  | nil => simp
  | cons b rest ih =>
    cases i with
    | zero => simp [List.eraseIdx]
    | succ j => simp [List.eraseIdx, ih j]

/-! ### The "rows" view of the parallel arrays

All editing operations erase or keep the same index in every parallel
array; stating theorems through the zipped row view makes "lock-step,
positionally aligned" a single equation. -/

/-- One question's slice across the five parallel arrays. -/
structure Row where
  name : String
  text : String
  qtype : String
  options : Option (List String)
  responses : List String
deriving Repr, DecidableEq, Inhabited

/-- Zip the five parallel arrays into rows (truncating at the shortest). -/
def zip5 : List String → List String → List String →
    List (Option (List String)) → List (List String) → List Row
  | a :: as', b :: bs, c :: cs, d :: ds, e :: es =>
    ⟨a, b, c, d, e⟩ :: zip5 as' bs cs ds es
  | _, _, _, _, _ => []

/-- The rows of a batch. -/
def InputData.rows (b : InputData) : List Row :=
  zip5 b.question_names b.question_texts b.question_types
    b.question_options b.raw_data

/-- Rebuild a batch from rows (codebook and remaining fields supplied). -/
def ofRows (rows : List Row) (cb : Codebook) (b₀ : InputData) : InputData :=
  { question_names := rows.map (·.name)
    question_texts := rows.map (·.text)
    question_types := rows.map (·.qtype)
    question_options := rows.map (·.options)
    raw_data := rows.map (·.responses)
    answer_codebook := cb
    question_names_to_question_text := b₀.question_names_to_question_text
    errorLog := b₀.errorLog }

theorem wf_ofRows (rows : List Row) (cb : Codebook) (b₀ : InputData) :
    (ofRows rows cb b₀).wf := by
  simp [ofRows, InputData.wf]

theorem rows_ofRows (rows : List Row) (cb : Codebook) (b₀ : InputData) :
    (ofRows rows cb b₀).rows = rows := by
  show zip5 (rows.map (·.name)) (rows.map (·.text)) (rows.map (·.qtype))
      (rows.map (·.options)) (rows.map (·.responses)) = rows
  induction rows with
  | nil => rfl
  | cons r rest ih => simp [zip5, ih]

theorem zip5_proj (as' bs cs : List String) (ds : List (Option (List String)))
    (es : List (List String)) (h1 : bs.length = as'.length)
    (h2 : cs.length = as'.length) (h3 : ds.length = as'.length)
    (h4 : es.length = as'.length) :
    (zip5 as' bs cs ds es).map (·.name) = as' ∧
    (zip5 as' bs cs ds es).map (·.text) = bs ∧
    (zip5 as' bs cs ds es).map (·.qtype) = cs ∧
    (zip5 as' bs cs ds es).map (·.options) = ds ∧
    (zip5 as' bs cs ds es).map (·.responses) = es := by
  induction as' generalizing bs cs ds es with
  | nil =>
    cases bs <;> cases cs <;> cases ds <;> cases es <;> simp_all [zip5]
  | cons a rest ih =>
    cases bs with
    | nil => simp at h1
    | cons b bs' =>
      cases cs with
      | nil => simp at h2
      | cons c cs' =>
        cases ds with
        | nil => simp at h3
        | cons dd ds' =>
          cases es with
          | nil => simp at h4
          | cons e es' =>
            simp only [List.length_cons, Nat.succ_inj] at h1 h2 h3 h4
            have := ih bs' cs' ds' es' h1 h2 h3 h4
            simp [zip5, this]

theorem ofRows_self (b : InputData) (h : b.wf) :
    ofRows b.rows b.answer_codebook b = b := by
  obtain ⟨h1, h2, h3, h4⟩ := h
  obtain ⟨p1, p2, p3, p4, p5⟩ := zip5_proj b.question_names b.question_texts
    b.question_types b.question_options b.raw_data h1 h2 h3 h4
  show InputData.mk _ _ _ _ _ _ _ _ = b
  rw [show (InputData.rows b).map (·.name) = b.question_names from p1]
  cases b
  simp_all [ofRows, InputData.rows]

theorem rows_map_name (b : InputData) (h : b.wf) :
    b.rows.map (·.name) = b.question_names :=
  (zip5_proj _ _ _ _ _ h.1 h.2.1 h.2.2.1 h.2.2.2).1

theorem dictGet_dictSet_ne {V : Type} (k k' : String) (v : V) (d : Dict V)
    (h : k ≠ k') : dictGet k (dictSet k' v d) = dictGet k d := by
  have hne : k' ≠ k := fun hc => h hc.symm
  induction d with
  | nil => simp only [dictSet, dictGet, if_neg hne]
  | cons kv rest ih =>
    by_cases hk : kv.1 = k'
    · have hkvk : kv.1 ≠ k := by rw [hk]; exact hne
      simp only [dictSet, if_pos hk, dictGet, if_neg hne, if_neg hkvk]
    · simp only [dictSet, if_neg hk, dictGet]
      by_cases hkk : kv.1 = k
      · simp [hkk]
      · simp [hkk, ih]

/-- A concrete well-formed batch mirroring `InputDataABC.example()`. -/
def exampleBatch : InputData :=
  { question_names := ["morning", "feeling"]
    question_texts := ["how are you doing this morning?", "how are you feeling?"]
    question_types := ["multiple_choice", "multiple_choice"]
    question_options := [some ["1", "3"], some ["4", "6"]]
    raw_data := [["1", "4"], ["3", "6"]]
    answer_codebook := []
    question_names_to_question_text := none
    errorLog := [] }

/-! ### C1: dropping a question keeps the parallel arrays in lock-step -/

/-- C1: for every well-formed batch and question name present in it,
`_drop_question` removes the entry at that name's index from each of the
five parallel arrays and the name's entry from the answer codebook,
decreases the question count by exactly 1, and leaves the arrays in
lock-step. -/
theorem drop_question_lockstep (b : InputData) (qn : String)
    (hwf : b.wf) (hmem : qn ∈ b.question_names)
    (hkeys : (b.answer_codebook.map (·.1)).Nodup) :
    (b.drop_question qn false).2 = none ∧
    (b.drop_question qn false).1.question_names =
      b.question_names.eraseIdx (b.question_names.indexOf qn) ∧
    (b.drop_question qn false).1.question_texts =
      b.question_texts.eraseIdx (b.question_names.indexOf qn) ∧
    (b.drop_question qn false).1.question_types =
      b.question_types.eraseIdx (b.question_names.indexOf qn) ∧
    (b.drop_question qn false).1.question_options =
      b.question_options.eraseIdx (b.question_names.indexOf qn) ∧
    (b.drop_question qn false).1.raw_data =
      b.raw_data.eraseIdx (b.question_names.indexOf qn) ∧
    (b.drop_question qn false).1.answer_codebook =
      dictPop qn b.answer_codebook ∧
    dictGet qn (b.drop_question qn false).1.answer_codebook = none ∧
    (b.drop_question qn false).1.question_names.length + 1 =
      b.question_names.length ∧
    (b.drop_question qn false).1.wf := by
  obtain ⟨h1, h2, h3, h4⟩ := hwf
  have hidx : b.question_names.indexOf qn < b.question_names.length :=
    List.indexOf_lt_length.mpr hmem
  have hd : b.drop_question qn false =
      ({ b with
          question_names :=
            b.question_names.eraseIdx (b.question_names.indexOf qn)
          question_texts :=
            b.question_texts.eraseIdx (b.question_names.indexOf qn)
          question_types :=
            b.question_types.eraseIdx (b.question_names.indexOf qn)
          question_options :=
            b.question_options.eraseIdx (b.question_names.indexOf qn)
          raw_data := b.raw_data.eraseIdx (b.question_names.indexOf qn)
          answer_codebook := dictPop qn b.answer_codebook }, none) := by
    simp only [InputData.drop_question, if_pos hmem]
  rw [hd]
  refine ⟨rfl, rfl, rfl, rfl, rfl, rfl, rfl, ?_, ?_, ?_⟩
  · exact dictGet_dictPop_self qn b.answer_codebook hkeys
  · simp only [List.length_eraseIdx_of_lt hidx]
    omega
  · constructor
    · simp only [List.length_eraseIdx_of_lt hidx,
        List.length_eraseIdx_of_lt (h1 ▸ hidx), h1]
    constructor
    · simp only [List.length_eraseIdx_of_lt hidx,
        List.length_eraseIdx_of_lt (h2 ▸ hidx), h2]
    constructor
    · simp only [List.length_eraseIdx_of_lt hidx,
        List.length_eraseIdx_of_lt (h3 ▸ hidx), h3]
    · simp only [List.length_eraseIdx_of_lt hidx,
        List.length_eraseIdx_of_lt (h4 ▸ hidx), h4]

/-- Witness for C1 at `exampleBatch` and the question `morning`. -/
theorem drop_question_lockstep_witness :
    (exampleBatch.drop_question "morning" false).2 = none ∧
    (exampleBatch.drop_question "morning" false).1.question_names =
      exampleBatch.question_names.eraseIdx
        (exampleBatch.question_names.indexOf "morning") ∧
    (exampleBatch.drop_question "morning" false).1.question_texts =
      exampleBatch.question_texts.eraseIdx
        (exampleBatch.question_names.indexOf "morning") ∧
    (exampleBatch.drop_question "morning" false).1.question_types =
      exampleBatch.question_types.eraseIdx
        (exampleBatch.question_names.indexOf "morning") ∧
    (exampleBatch.drop_question "morning" false).1.question_options =
      exampleBatch.question_options.eraseIdx
        (exampleBatch.question_names.indexOf "morning") ∧
    (exampleBatch.drop_question "morning" false).1.raw_data =
      exampleBatch.raw_data.eraseIdx
        (exampleBatch.question_names.indexOf "morning") ∧
    (exampleBatch.drop_question "morning" false).1.answer_codebook =
      dictPop "morning" exampleBatch.answer_codebook ∧
    dictGet "morning"
      (exampleBatch.drop_question "morning" false).1.answer_codebook = none ∧
    (exampleBatch.drop_question "morning" false).1.question_names.length + 1 =
      exampleBatch.question_names.length ∧
    (exampleBatch.drop_question "morning" false).1.wf :=
  drop_question_lockstep exampleBatch "morning" (by decide) (by decide)
    (by decide)

/-! ### C7 / C10: rename -/

/-- C7: renaming a present question succeeds, preserves the length of
`question_names`, replaces the old name with the new one at its original
position leaving every other position unchanged, and moves the codebook
entry from the old key to the new key without loss of its mappings. -/
theorem rename_moves_codebook (b : InputData) (old_name new_name : String)
    (m : Dict String) (hmem : old_name ∈ b.question_names)
    (hcb : dictGet old_name b.answer_codebook = some m)
    (hkeys : (b.answer_codebook.map (·.1)).Nodup) :
    (b.rename old_name new_name false).2 = none ∧
    (b.rename old_name new_name false).1.question_names.length =
      b.question_names.length ∧
    (b.rename old_name new_name false).1.question_names =
      b.question_names.set (b.question_names.indexOf old_name) new_name ∧
    (∀ i, i ≠ b.question_names.indexOf old_name →
      ((b.rename old_name new_name false).1.question_names)[i]? =
        b.question_names[i]?) ∧
    dictGet new_name (b.rename old_name new_name false).1.answer_codebook =
      some m ∧
    (old_name ≠ new_name →
      dictGet old_name (b.rename old_name new_name false).1.answer_codebook =
        none) := by
  have hr : b.rename old_name new_name false =
      ({ b with
          question_names :=
            b.question_names.set (b.question_names.indexOf old_name) new_name
          answer_codebook :=
            dictSet new_name ((dictGet old_name b.answer_codebook).getD [])
              (dictPop old_name b.answer_codebook) }, none) := by
    simp only [InputData.rename, if_pos hmem]
  rw [hr]
  refine ⟨rfl, by simp, rfl, ?_, ?_, ?_⟩
  · intro i hi
    exact List.getElem?_set_ne (fun hc => hi hc.symm)
  · rw [hcb]
    exact dictGet_dictSet_self new_name m _
  · intro hne
    rw [dictGet_dictSet_ne _ _ _ _ hne]
    exact dictGet_dictPop_self old_name b.answer_codebook hkeys

/-- A batch like `exampleBatch` but with a full answer codebook, for the
rename witnesses. -/
def exampleBatchCb : InputData :=
  { exampleBatch with
      answer_codebook :=
        [("morning", [("1", "hello")]), ("feeling", [("3", "great")])] }

/-- Witness for C7: rename `morning` to `evening` on a batch whose codebook
maps `morning`'s raw value `1` to `hello`. -/
theorem rename_moves_codebook_witness :
    (exampleBatchCb.rename "morning" "evening" false).2 = none ∧
    (exampleBatchCb.rename "morning" "evening" false).1.question_names.length =
      exampleBatchCb.question_names.length ∧
    (exampleBatchCb.rename "morning" "evening" false).1.question_names =
      exampleBatchCb.question_names.set
        (exampleBatchCb.question_names.indexOf "morning") "evening" ∧
    (∀ i, i ≠ exampleBatchCb.question_names.indexOf "morning" →
      ((exampleBatchCb.rename "morning" "evening" false).1.question_names)[i]? =
        exampleBatchCb.question_names[i]?) ∧
    dictGet "evening"
      (exampleBatchCb.rename "morning" "evening" false).1.answer_codebook =
      some [("1", "hello")] ∧
    ("morning" ≠ "evening" →
      dictGet "morning"
        (exampleBatchCb.rename "morning" "evening" false).1.answer_codebook =
        none) :=
  rename_moves_codebook exampleBatchCb "morning" "evening" [("1", "hello")]
    (by decide) (by decide) (by decide)

/-- C10: a successful rename always inserts the new name as a codebook key,
with an empty mapping when the old name had none; a constructor-built batch
with no codebook therefore loses the keys-equal-names correspondence after
a rename. -/
theorem rename_inserts_codebook_key (b : InputData)
    (old_name new_name : String) (hmem : old_name ∈ b.question_names) :
    (b.rename old_name new_name false).2 = none ∧
    (dictGet new_name
      (b.rename old_name new_name false).1.answer_codebook).isSome = true ∧
    (dictGet old_name b.answer_codebook = none →
      dictGet new_name (b.rename old_name new_name false).1.answer_codebook =
        some []) ∧
    mkInputData (fun _ => true) id ["morning", "feeling"]
      exampleBatch.question_texts exampleBatch.raw_data none none none none
      exampleBatch.question_types exampleBatch.question_options none =
      .ok exampleBatch ∧
    sameKeySet
      ((exampleBatch.rename "morning" "evening" false).1.answer_codebook.map
        (·.1))
      (exampleBatch.rename "morning" "evening" false).1.question_names =
      false := by
  have hr : b.rename old_name new_name false =
      ({ b with
          question_names :=
            b.question_names.set (b.question_names.indexOf old_name) new_name
          answer_codebook :=
            dictSet new_name ((dictGet old_name b.answer_codebook).getD [])
              (dictPop old_name b.answer_codebook) }, none) := by
    simp only [InputData.rename, if_pos hmem]
  rw [hr]
  refine ⟨rfl, ?_, ?_, by rfl, by rfl⟩
  · simp [dictGet_dictSet_self]
  · intro hnone
    simp [dictGet_dictSet_self, hnone]

/-- Witness for C10 at `exampleBatch` (empty codebook), renaming `morning`
to `evening`. -/
theorem rename_inserts_codebook_key_witness :
    (exampleBatch.rename "morning" "evening" false).2 = none ∧
    (dictGet "evening"
      (exampleBatch.rename "morning" "evening" false).1.answer_codebook).isSome =
      true ∧
    (dictGet "morning" exampleBatch.answer_codebook = none →
      dictGet "evening"
        (exampleBatch.rename "morning" "evening" false).1.answer_codebook =
        some []) ∧
    mkInputData (fun _ => true) id ["morning", "feeling"]
      exampleBatch.question_texts exampleBatch.raw_data none none none none
      exampleBatch.question_types exampleBatch.question_options none =
      .ok exampleBatch ∧
    sameKeySet
      ((exampleBatch.rename "morning" "evening" false).1.answer_codebook.map
        (·.1))
      (exampleBatch.rename "morning" "evening" false).1.question_names =
      false :=
  rename_inserts_codebook_key exampleBatch "morning" "evening" (by decide)

/-! ### C8: missing-name editing operations -/

/-- C8: renaming or dropping an absent question raises a not-found error
when the ignore-missing flag is off, and is a no-op that leaves the batch
unchanged when it is on; `drop` exposes no flag and always raises. -/
theorem missing_name_ops (b : InputData) (qn new_name : String)
    (h : qn ∉ b.question_names) :
    b.rename qn new_name false =
      (b, some ("Question " ++ qn ++ " not found.")) ∧
    b.rename qn new_name true = (b, none) ∧
    b.rename_questions [(qn, new_name)] false =
      (b, some ("Question " ++ qn ++ " not found.")) ∧
    b.rename_questions [(qn, new_name)] true = (b, none) ∧
    b.drop_question qn false =
      (b, some ("Question " ++ qn ++ " not found.")) ∧
    b.drop_question qn true = (b, none) ∧
    b.drop [qn] = (b, some ("Question " ++ qn ++ " not found.")) := by
  have hr0 : b.rename qn new_name false =
      (b, some ("Question " ++ qn ++ " not found.")) := by
    simp [InputData.rename, if_neg h]
  have hr1 : b.rename qn new_name true = (b, none) := by
    simp [InputData.rename, if_neg h]
  have hd0 : b.drop_question qn false =
      (b, some ("Question " ++ qn ++ " not found.")) := by
    simp [InputData.drop_question, if_neg h]
  have hd1 : b.drop_question qn true = (b, none) := by
    simp [InputData.drop_question, if_neg h]
  refine ⟨hr0, hr1, ?_, ?_, hd0, hd1, ?_⟩
  · simp [InputData.rename_questions, hr0]
  · simp [InputData.rename_questions, hr1]
  · simp [InputData.drop, hd0]

/-- Witness for C8: the name `ghost` is absent from `exampleBatch`. -/
theorem missing_name_ops_witness :
    exampleBatch.rename "ghost" "spirit" false =
      (exampleBatch, some ("Question " ++ "ghost" ++ " not found.")) ∧
    exampleBatch.rename "ghost" "spirit" true = (exampleBatch, none) ∧
    exampleBatch.rename_questions [("ghost", "spirit")] false =
      (exampleBatch, some ("Question " ++ "ghost" ++ " not found.")) ∧
    exampleBatch.rename_questions [("ghost", "spirit")] true =
      (exampleBatch, none) ∧
    exampleBatch.drop_question "ghost" false =
      (exampleBatch, some ("Question " ++ "ghost" ++ " not found.")) ∧
    exampleBatch.drop_question "ghost" true = (exampleBatch, none) ∧
    exampleBatch.drop ["ghost"] =
      (exampleBatch, some ("Question " ++ "ghost" ++ " not found.")) :=
  missing_name_ops exampleBatch "ghost" "spirit" (by decide)

/-! ### C2: modify_question_type is atomic on failure -/

/-- C2: for a question present in the batch, (a) requesting a type outside
the registry raises the named validation error and leaves the batch — in
particular the question's type and options — unchanged; (b) when the type
is registered but re-assembling the question fails, the operation returns
without raising, auto-reverts the type and options arrays to their prior
values, and appends exactly one recoverable error to the log. -/
theorem modify_question_type_atomic {Q : Type} (available : List String)
    (toQ : RawQuestion → Option Q) (b : InputData) (qn ty : String)
    (dropOpts : Bool) (newOpts : Option (List String))
    (hwf : b.wf) (hmem : qn ∈ b.question_names) :
    (ty ∉ available →
      InputData.modify_question_type available toQ b qn ty dropOpts newOpts =
        (b, some ("Question type " ++ ty ++ " is not available."))) ∧
    (ty ∈ available →
      toQ ((b.mutateTypeOptions qn ty dropOpts newOpts).raw_question
        (b.question_names.indexOf qn)) = none →
      (InputData.modify_question_type available toQ b qn ty dropOpts
        newOpts).2 = none ∧
      (InputData.modify_question_type available toQ b qn ty dropOpts
        newOpts).1.question_types = b.question_types ∧
      (InputData.modify_question_type available toQ b qn ty dropOpts
        newOpts).1.question_options = b.question_options ∧
      (InputData.modify_question_type available toQ b qn ty dropOpts
        newOpts).1.question_names = b.question_names ∧
      (InputData.modify_question_type available toQ b qn ty dropOpts
        newOpts).1.raw_data = b.raw_data ∧
      (InputData.modify_question_type available toQ b qn ty dropOpts
        newOpts).1.errorLog =
        b.errorLog ++ [modFailEntry qn ty "to_question raised"]) := by
  have hidx : b.question_names.indexOf qn < b.question_names.length :=
    List.indexOf_lt_length.mpr hmem
  constructor
  · intro hna
    simp only [InputData.modify_question_type, if_pos hmem, if_neg hna]
  · intro ha hfail
    have hmod : InputData.modify_question_type available toQ b qn ty dropOpts
        newOpts =
        ({ b.mutateTypeOptions qn ty dropOpts newOpts with
            question_types :=
              (b.mutateTypeOptions qn ty dropOpts newOpts).question_types.set
                (b.question_names.indexOf qn)
                (b.question_types.getD (b.question_names.indexOf qn) "")
            question_options :=
              (b.mutateTypeOptions qn ty dropOpts newOpts).question_options.set
                (b.question_names.indexOf qn)
                (b.question_options.getD (b.question_names.indexOf qn) none)
            errorLog :=
              (b.mutateTypeOptions qn ty dropOpts newOpts).errorLog ++
                [modFailEntry qn ty "to_question raised"] }, none) := by
      simp only [InputData.modify_question_type, if_pos hmem, if_pos ha, hfail]
    rw [hmod]
    have htypes :
        (b.mutateTypeOptions qn ty dropOpts newOpts).question_types.set
          (b.question_names.indexOf qn)
          (b.question_types.getD (b.question_names.indexOf qn) "") =
        b.question_types := by
      show ((b.question_types.set _ ty).set _ _) = b.question_types
      rw [List.set_set]
      exact set_getD_self _ _ _ (hwf.2.1 ▸ hidx)
    have hopts :
        (b.mutateTypeOptions qn ty dropOpts newOpts).question_options.set
          (b.question_names.indexOf qn)
          (b.question_options.getD (b.question_names.indexOf qn) none) =
        b.question_options := by
      have hlt : b.question_names.indexOf qn < b.question_options.length :=
        hwf.2.2.1 ▸ hidx
      show ((match newOpts with
            | some o =>
              (if dropOpts then
                  b.question_options.set (b.question_names.indexOf qn) none
                else b.question_options).set (b.question_names.indexOf qn)
                (some o)
            | none =>
              if dropOpts then
                b.question_options.set (b.question_names.indexOf qn) none
              else b.question_options).set (b.question_names.indexOf qn)
          (b.question_options.getD (b.question_names.indexOf qn) none)) =
        b.question_options
      cases newOpts with
      | some o =>
        cases dropOpts <;>
          simp only [if_true, if_false, Bool.false_eq_true, List.set_set] <;>
          exact set_getD_self _ _ _ hlt
      | none =>
        cases dropOpts <;>
          simp only [if_true, if_false, Bool.false_eq_true, List.set_set] <;>
          exact set_getD_self _ _ _ hlt
    exact ⟨rfl, htypes, hopts, rfl, rfl, rfl⟩

/-- Witness for C2: on `exampleBatch`, requesting the unregistered type
`poop` raises and leaves the batch untouched; requesting the registered
type `multiple_choice` while dropping the options makes assembly fail
(the assembler rejects missing options), which reverts both arrays and
logs one error. -/
theorem modify_question_type_atomic_witness :
    (InputData.modify_question_type ["multiple_choice"]
        (fun rq => if rq.question_options = none then none else some ())
        exampleBatch "morning" "poop" false none =
      (exampleBatch, some ("Question type " ++ "poop" ++
        " is not available."))) ∧
    ((InputData.modify_question_type ["multiple_choice"]
        (fun rq => if rq.question_options = none then none else some ())
        exampleBatch "morning" "multiple_choice" true none).2 = none ∧
      (InputData.modify_question_type ["multiple_choice"]
        (fun rq => if rq.question_options = none then none else some ())
        exampleBatch "morning" "multiple_choice" true none).1.question_types =
        exampleBatch.question_types ∧
      (InputData.modify_question_type ["multiple_choice"]
        (fun rq => if rq.question_options = none then none else some ())
        exampleBatch "morning" "multiple_choice" true
        none).1.question_options = exampleBatch.question_options ∧
      (InputData.modify_question_type ["multiple_choice"]
        (fun rq => if rq.question_options = none then none else some ())
        exampleBatch "morning" "multiple_choice" true none).1.question_names =
        exampleBatch.question_names ∧
      (InputData.modify_question_type ["multiple_choice"]
        (fun rq => if rq.question_options = none then none else some ())
        exampleBatch "morning" "multiple_choice" true none).1.raw_data =
        exampleBatch.raw_data ∧
      (InputData.modify_question_type ["multiple_choice"]
        (fun rq => if rq.question_options = none then none else some ())
        exampleBatch "morning" "multiple_choice" true none).1.errorLog =
        exampleBatch.errorLog ++
          [modFailEntry "morning" "multiple_choice" "to_question raised"]) :=
  ⟨(modify_question_type_atomic ["multiple_choice"]
      (fun rq => if rq.question_options = none then none else some ())
      exampleBatch "morning" "poop" false none (by decide) (by decide)).1
      (by decide),
    (modify_question_type_atomic ["multiple_choice"]
      (fun rq => if rq.question_options = none then none else some ())
      exampleBatch "morning" "multiple_choice" true none (by decide)
      (by decide)).2 (by decide) (by rfl)⟩

/-! ### C5: codebook application is per-value exact-match substitution -/

theorem applyCodebook_length (cb : Codebook) (ns : List String)
    (cols : List (List String)) :
    (applyCodebook cb ns cols).length = cols.length := by
  induction ns generalizing cols with
  | nil => rfl
  | cons qn ns ih =>
    cases cols with
    | nil => rfl
    | cons col cols => simp [applyCodebook, ih]

theorem applyCodebook_getD (cb : Codebook) (ns : List String)
    (cols : List (List String)) (i : Nat) (hi : i < ns.length)
    (hlen : ns.length = cols.length) :
    (applyCodebook cb ns cols).getD i [] =
      match dictGet (ns.getD i "") cb with
      | some m => (cols.getD i []).map (fun r => (dictGet r m).getD r)
      | none => cols.getD i [] := by
  induction ns generalizing cols i with
  | nil => simp at hi
  | cons qn ns ih =>
    cases cols with
    | nil => simp at hlen
    | cons col cols =>
      cases i with
      | zero =>
        cases hdg : dictGet qn cb <;> simp [applyCodebook, hdg, List.getD]
      | succ j =>
        have hi' : j < ns.length := by simpa using hi
        have hlen' : ns.length = cols.length := by simpa using hlen
        have hrec := ih cols j hi' hlen'
        cases hdg : dictGet qn cb <;>
          simpa [applyCodebook, hdg, List.getD] using hrec

/-- C5: `apply_codebook` substitutes per value by exact match — a response
equal to a codebook key is replaced by the mapped value, an unmapped
response passes through — preserving the number of columns and every
column's length; and the constructor applies exactly this substitution to
the raw data it stores at construction time. -/
theorem apply_codebook_exact_match (cb : Codebook) (names : List String)
    (data : List (List String)) (hlen : names.length = data.length) :
    (applyCodebook cb names data).length = data.length ∧
    (∀ i, i < names.length →
      (applyCodebook cb names data).getD i [] =
        (match dictGet (names.getD i "") cb with
         | some m => (data.getD i []).map (fun r => (dictGet r m).getD r)
         | none => data.getD i []) ∧
      ((applyCodebook cb names data).getD i []).length =
        (data.getD i []).length) ∧
    (∀ (v : String → Bool) (rp : String → String)
      (ntqt : Option (Dict String)) (tys : List String)
      (opts : List (Option (List String))) (texts : List String)
      (b : InputData), texts.length = names.length →
      mkInputData v rp [] [] [] (some names) (some texts) ntqt (some cb)
        tys opts (some data) = .ok b →
      b.raw_data = applyCodebook cb names data ∧
      b.question_names = names ∧ b.answer_codebook = cb) := by
  refine ⟨applyCodebook_length cb names data, ?_, ?_⟩
  · intro i hi
    have hg := applyCodebook_getD cb names data i hi hlen
    refine ⟨hg, ?_⟩
    rw [hg]
    cases dictGet (names.getD i "") cb <;> simp
  · intro v rp ntqt tys opts texts b hlt hok
    by_cases hk : sameKeySet (cb.map (·.1)) names
    · simp only [mkInputData, codebookKeysError, hk, if_true,
        namesTextsLengthError, hlt.symm, if_pos rfl, resolveQuestionNames,
        Option.getD_some] at hok
      cases hok
      exact ⟨rfl, rfl, rfl⟩
    · simp [mkInputData, codebookKeysError, hk] at hok

/-- Witness for C5 at the spec's example: codebook
`{"morning": {"1": "hello"}}` applied to columns `["1","4"]` (morning) and
`["3","6"]` (feeling) yields `["hello","4"]` and `["3","6"]`. -/
theorem apply_codebook_exact_match_witness :
    applyCodebook [("morning", [("1", "hello")])] ["morning", "feeling"]
      [["1", "4"], ["3", "6"]] = [["hello", "4"], ["3", "6"]] ∧
    (applyCodebook [("morning", [("1", "hello")])] ["morning", "feeling"]
      [["1", "4"], ["3", "6"]]).length = [["1", "4"], ["3", "6"]].length ∧
    (∀ i, i < (["morning", "feeling"] : List String).length →
      (applyCodebook [("morning", [("1", "hello")])] ["morning", "feeling"]
        [["1", "4"], ["3", "6"]]).getD i [] =
        (match dictGet ((["morning", "feeling"] : List String).getD i "")
            [("morning", [("1", "hello")])] with
         | some m =>
            (([["1", "4"], ["3", "6"]] : List (List String)).getD i []).map
              (fun r => (dictGet r m).getD r)
         | none =>
            ([["1", "4"], ["3", "6"]] : List (List String)).getD i []) ∧
      ((applyCodebook [("morning", [("1", "hello")])] ["morning", "feeling"]
        [["1", "4"], ["3", "6"]]).getD i []).length =
        (([["1", "4"], ["3", "6"]] : List (List String)).getD i []).length) :=
  ⟨by rfl,
    (apply_codebook_exact_match [("morning", [("1", "hello")])]
      ["morning", "feeling"] [["1", "4"], ["3", "6"]] (by decide)).1,
    (apply_codebook_exact_match [("morning", [("1", "hello")])]
      ["morning", "feeling"] [["1", "4"], ["3", "6"]] (by decide)).2.1⟩

/-! ### C9: the type classifier applies three rules in order -/

/-- C9 (spec-modelled: `question_type_mixin.py` is not among the source
files): the classifier is a pure function of the statistics; a
low-cardinality column (rule 1) is classified `multiple_choice` or
`multiple_choice_with_other`; otherwise a column with numeric fraction at
least the threshold is `numerical` (rule 2); otherwise `free_text`
(rule 3); and classifying the same statistics twice yields the same
type. -/
theorem classify_three_rules (s : QuestionStats) :
    (s.num_unique_responses ≤ NUM_UNIQUE_THRESHOLD →
      classifyQuestionType s = .multiple_choice ∨
      classifyQuestionType s = .multiple_choice_with_other) ∧
    (NUM_UNIQUE_THRESHOLD < s.num_unique_responses →
      FRAC_NUMERICAL_THRESHOLD ≤ s.frac_numerical →
      classifyQuestionType s = .numerical) ∧
    (NUM_UNIQUE_THRESHOLD < s.num_unique_responses →
      s.frac_numerical < FRAC_NUMERICAL_THRESHOLD →
      classifyQuestionType s = .free_text) ∧
    classifyQuestionType s = classifyQuestionType s := by
  refine ⟨?_, ?_, ?_, rfl⟩
  · intro h1
    unfold classifyQuestionType
    rw [if_pos h1]
    by_cases h2 : MULTIPLE_CHOICE_OTHER_THRESHOLD ≤ s.frac_obs_from_top_5
    · exact Or.inl (by rw [if_pos h2])
    · exact Or.inr (by rw [if_neg h2])
  · intro h1 h2
    unfold classifyQuestionType
    rw [if_neg (Nat.not_le_of_lt h1), if_pos h2]
  · intro h1 h2
    unfold classifyQuestionType
    rw [if_neg (Nat.not_le_of_lt h1), if_neg (not_le_of_lt h2)]

/-- Example statistics: the `morning` column `["1","4"]`. -/
def exampleStats : QuestionStats :=
  { num_responses := 2
    num_unique_responses := 2
    missing := 0
    unique_responses := ["1", "4"]
    frac_numerical := 1
    top_5 := [("1", 1), ("4", 1)]
    frac_obs_from_top_5 := 1 }

/-- Witness for C9 at `exampleStats` (2 unique responses, rule 1 fires). -/
theorem classify_three_rules_witness :
    exampleStats.num_unique_responses ≤ NUM_UNIQUE_THRESHOLD ∧
    (classifyQuestionType exampleStats = .multiple_choice ∨
      classifyQuestionType exampleStats = .multiple_choice_with_other) :=
  ⟨by decide, (classify_three_rules exampleStats).1 (by decide)⟩

/-! ### C4: per-question construction failures never propagate -/

theorem indexOf_getElem_self {α : Type} [BEq α] [LawfulBEq α] (l : List α)
    (hnd : l.Nodup) (i : Nat) (hi : i < l.length) :
    l.indexOf l[i] = i := by
  induction l generalizing i with
  | nil => simp at hi
  | cons a rest ih =>
    cases i with
    | zero => simp [List.indexOf_cons]
    | succ j =>
      have hj : j < rest.length := by simpa using hi
      have hmem : rest[j] ∈ rest := List.getElem_mem hj
      have hne : (a == rest[j]) = false := by
        simp only [beq_eq_false_iff_ne, ne_eq]
        intro hc
        exact (List.nodup_cons.mp hnd).1 (hc ▸ hmem)
      simp only [List.getElem_cons_succ, List.indexOf_cons, hne, cond_false]
      rw [ih (List.nodup_cons.mp hnd).2 j hj]

theorem questionsGo_eq {Q : Type} (toQ : RawQuestion → Option Q)
    (b : InputData) (l : List String) :
    InputData.questionsGo toQ b l =
      (l.map (fun qn =>
        toQ (b.raw_question (b.question_names.indexOf qn))),
       l.filterMap (fun qn =>
        match toQ (b.raw_question (b.question_names.indexOf qn)) with
        | some _ => none
        | none => some (creationEntry qn))) := by
  induction l with
  | nil => rfl
  | cons qn rest ih =>
    simp only [InputData.questionsGo, ih]
    cases h : toQ (b.raw_question (b.question_names.indexOf qn)) <;>
      simp [h, List.filterMap_cons]

/-- C4: `questions()` never raises — it yields exactly one `Option` per
question, `none` exactly where `to_question` fails; each failure appends
one `{question_name, error type, details, exception}` entry to the
session log, which stays queryable through the count, failed-question-list
and has-errors operations; and the built survey omits the failed
questions. -/
theorem questions_recoverable {Q : Type} (toQ : RawQuestion → Option Q)
    (b : InputData) (hnd : b.question_names.Nodup) :
    ((InputData.questions toQ b).1).length = b.question_names.length ∧
    (∀ i, i < b.question_names.length →
      ((InputData.questions toQ b).1)[i]? =
        some (toQ (b.raw_question i))) ∧
    (∀ i, i < b.question_names.length → toQ (b.raw_question i) = none →
      creationEntry (b.question_names.getD i "") ∈
        (InputData.questions toQ b).2) ∧
    getErrorCount (InputData.questions toQ b).2 =
      ((InputData.questions toQ b).2).length ∧
    getFailedQuestions (InputData.questions toQ b).2 =
      ((InputData.questions toQ b).2).map (·.question_name) ∧
    (hasErrors (InputData.questions toQ b).2 = true ↔
      (InputData.questions toQ b).2 ≠ []) ∧
    InputData.surveyQuestions toQ b =
      ((InputData.questions toQ b).1).filterMap id := by
  have hq : InputData.questions toQ b =
      (b.question_names.map (fun qn =>
        toQ (b.raw_question (b.question_names.indexOf qn))),
       b.errorLog ++ b.question_names.filterMap (fun qn =>
        match toQ (b.raw_question (b.question_names.indexOf qn)) with
        | some _ => none
        | none => some (creationEntry qn))) := by
    simp only [InputData.questions, questionsGo_eq]
  refine ⟨by rw [hq]; simp, ?_, ?_, rfl, rfl, ?_, rfl⟩
  · intro i hi
    rw [hq]
    simp only [List.getElem?_map]
    rw [List.getElem?_eq_getElem hi]
    simp only [Option.map_some']
    rw [indexOf_getElem_self b.question_names hnd i hi]
  · intro i hi hfail
    rw [hq]
    refine List.mem_append.mpr (Or.inr ?_)
    refine List.mem_filterMap.mpr ⟨b.question_names[i], List.getElem_mem hi, ?_⟩
    rw [indexOf_getElem_self b.question_names hnd i hi, hfail]
    have : b.question_names.getD i "" = b.question_names[i] := by
      simp [List.getD, List.getElem?_eq_getElem hi]
    rw [this]
  · constructor
    · intro h hc
      rw [hasErrors, hc] at h
      simp at h
    · intro h
      rw [hasErrors]
      simp only [decide_eq_true_eq]
      exact List.length_pos.mpr h

/-- A `to_question` stand-in that fails exactly on the `morning` question,
for the C4 witness. -/
def failMorning (rq : RawQuestion) : Option String :=
  if rq.question_name = "morning" then none else some rq.question_name

/-- Witness for C4 on `exampleBatch` with `failMorning`: the generator
yields `none` then a question, one creation-error entry is logged, and the
query operations see it. -/
theorem questions_recoverable_witness :
    (InputData.questions failMorning exampleBatch).1 =
      [none, some "feeling"] ∧
    (InputData.questions failMorning exampleBatch).2 =
      [creationEntry "morning"] ∧
    ((InputData.questions failMorning exampleBatch).1)[0]? =
      some (failMorning (exampleBatch.raw_question 0)) ∧
    creationEntry (exampleBatch.question_names.getD 0 "") ∈
      (InputData.questions failMorning exampleBatch).2 ∧
    getErrorCount (InputData.questions failMorning exampleBatch).2 = 1 ∧
    getFailedQuestions (InputData.questions failMorning exampleBatch).2 =
      ["morning"] ∧
    hasErrors (InputData.questions failMorning exampleBatch).2 = true ∧
    InputData.surveyQuestions failMorning exampleBatch = ["feeling"] :=
  ⟨by rfl, by rfl,
    (questions_recoverable failMorning exampleBatch (by decide)).2.1 0
      (by decide),
    (questions_recoverable failMorning exampleBatch (by decide)).2.2.1 0
      (by decide) (by rfl),
    by rfl, by rfl, by rfl, by rfl⟩

/-! ### C6: keep preserves order; select follows the argument order -/

theorem eraseIdx_append_cons {α : Type} (xs ys : List α) (y : α) :
    (xs ++ y :: ys).eraseIdx xs.length = xs ++ ys := by
  induction xs with
  | nil => rfl
  | cons x xs ih => simp [List.eraseIdx_cons_succ, ih]

theorem map_eraseIdx_append {α β : Type} (f : α → β) (pre suf : List α)
    (r : α) : ((pre ++ r :: suf).map f).eraseIdx pre.length =
      (pre ++ suf).map f := by
  rw [List.map_append, List.map_cons,
    show pre.length = (pre.map f).length by simp, eraseIdx_append_cons,
    ← List.map_append]

theorem filter_map_comm {α β : Type} (f : α → β) (p : β → Bool)
    (l : List α) : (l.filter (fun a => p (f a))).map f =
      (l.map f).filter p := by
  induction l with
  | nil => rfl
  | cons a rest ih =>
    by_cases h : p (f a) <;> simp [List.filter_cons, h, ih]

theorem dedup_length_ne {α : Type} [DecidableEq α] (l : List α)
    (h : ¬ l.Nodup) : l.dedup.length ≠ l.length := by
  intro hc
  have heq : l.dedup = l := (l.dedup_sublist).eq_of_length hc
  exact h (heq ▸ l.nodup_dedup)

theorem repairNames_error (valid : String → Bool) (repair : String → String)
    (l : List String)
    (h : ∃ qn ∈ l, valid qn = false ∧ valid (repair qn) = false) :
    ∃ qn, repairNames valid repair l =
      .error ("Question names must be valid Python identifiers. '" ++ qn ++
        "' is not.") := by
  induction l with
  | nil =>
    obtain ⟨qn, hm, _⟩ := h
    simp at hm
  | cons a rest ih =>
    by_cases hva : valid a = true
    · have h' : ∃ qn ∈ rest, valid qn = false ∧ valid (repair qn) = false := by
        obtain ⟨qn, hm, hf⟩ := h
        rcases List.mem_cons.mp hm with rfl | hm'
        · rw [hva] at hf; exact absurd hf.1 (by simp)
        · exact ⟨qn, hm', hf⟩
      obtain ⟨qn, hr⟩ := ih h'
      exact ⟨qn, by simp [repairNames, hva, hr]⟩
    · by_cases hvr : valid (repair a) = true
      · have h' : ∃ qn ∈ rest, valid qn = false ∧ valid (repair qn) = false := by
          obtain ⟨qn, hm, hf⟩ := h
          rcases List.mem_cons.mp hm with rfl | hm'
          · rw [hvr] at hf; exact absurd hf.2 (by simp)
          · exact ⟨qn, hm', hf⟩
        obtain ⟨qn, hr⟩ := ih h'
        exact ⟨qn, by simp [repairNames, hva, hvr, hr]⟩
      · refine ⟨a, ?_⟩
        simp only [repairNames, Bool.not_eq_true] at hva hvr ⊢
        rw [hva, hvr]
        simp

theorem mem_keys_dictSet {V : Type} (x k : String) (v : V) (d : Dict V) :
    x ∈ (dictSet k v d).map (·.1) ↔ x = k ∨ x ∈ d.map (·.1) := by
  induction d with
  | nil => simp [dictSet]
  | cons kv rest ih =>
    by_cases hk : kv.1 = k
    · subst hk
      simp [dictSet]
    · simp only [dictSet, if_neg hk, List.map_cons, List.mem_cons, ih]
      tauto

theorem mem_keys_selectFold (l : List String) (v : String → Dict String)
    (init : Codebook) (x : String) :
    x ∈ ((l.foldl (fun acc qn => dictSet qn (v qn) acc) init).map (·.1)) ↔
      x ∈ init.map (·.1) ∨ x ∈ l := by
  induction l generalizing init with
  | nil => simp
  | cons qn rest ih =>
    simp only [List.foldl_cons, ih, mem_keys_dictSet, List.mem_cons]
    tauto

/-- The codebook after `keep` has dropped the non-kept rows of `suf`. -/
def keepCb (K : List String) (suf : List Row) (cb : Codebook) : Codebook :=
  suf.foldl (fun c r => if r.name ∈ K then c else dictPop r.name c) cb

theorem drop_question_ofRows (pre suf : List Row) (r : Row) (cb : Codebook)
    (b₀ : InputData) (ig : Bool) (hpre : r.name ∉ pre.map (·.name)) :
    (ofRows (pre ++ r :: suf) cb b₀).drop_question r.name ig =
      (ofRows (pre ++ suf) (dictPop r.name cb) b₀, none) := by
  have hmem : r.name ∈ (ofRows (pre ++ r :: suf) cb b₀).question_names := by
    simp [ofRows]
  have hidx : (ofRows (pre ++ r :: suf) cb b₀).question_names.indexOf
      r.name = pre.length := by
    show ((pre ++ r :: suf).map (·.name)).indexOf r.name = pre.length
    rw [List.map_append, List.map_cons,
      List.indexOf_append_of_not_mem hpre]
    simp [List.indexOf_cons]
  simp only [InputData.drop_question, if_pos hmem, hidx]
  refine Prod.ext ?_ rfl
  show InputData.mk _ _ _ _ _ _ _ _ = InputData.mk _ _ _ _ _ _ _ _
  simp only [ofRows, map_eraseIdx_append]

theorem keepGo_ofRows (K : List String) (ig : Bool) (suf : List Row) :
    ∀ (pre : List Row) (cb : Codebook) (b₀ : InputData),
      ((pre ++ suf).map (·.name)).Nodup →
      (∀ r ∈ pre, r.name ∈ K) →
      InputData.keepGo K ig (suf.map (·.name)) (ofRows (pre ++ suf) cb b₀) =
        (ofRows (pre ++ suf.filter (fun r => r.name ∈ K))
          (keepCb K suf cb) b₀, none) := by
  induction suf with
  | nil =>
    intro pre cb b₀ _ _
    simp [InputData.keepGo, keepCb]
  | cons r suf ih =>
    intro pre cb b₀ hnd hpre
    simp only [List.map_cons, InputData.keepGo]
    by_cases hk : r.name ∈ K
    · rw [if_pos hk]
      have hres := ih (pre ++ [r]) cb b₀
        (by simpa using hnd)
        (by
          intro p hp
          rcases List.mem_append.mp hp with hp' | hp'
          · exact hpre p hp'
          · rw [List.mem_singleton.mp hp']; exact hk)
      rw [show (pre ++ [r]) ++ suf = pre ++ r :: suf by simp] at hres
      rw [hres]
      have hfil : (r :: suf).filter (fun x => decide (x.name ∈ K)) =
          r :: suf.filter (fun x => decide (x.name ∈ K)) := by
        simp [List.filter_cons, hk]
      have hcb : keepCb K (r :: suf) cb = keepCb K suf cb := by
        simp [keepCb, List.foldl_cons, hk]
      rw [hfil, hcb, show (pre ++ [r]) ++
        suf.filter (fun x => decide (x.name ∈ K)) =
        pre ++ r :: suf.filter (fun x => decide (x.name ∈ K)) by simp]
    · rw [if_neg hk]
      have hpren : r.name ∉ pre.map (·.name) := by
        intro hc
        obtain ⟨p, hp, hpn⟩ := List.mem_map.mp hc
        exact hk (hpn ▸ hpre p hp)
      have hnd' : ((pre ++ suf).map (·.name)).Nodup := by
        refine List.Nodup.sublist ?_ hnd
        exact ((List.sublist_cons_self r suf).append_left pre).map (·.name)
      have hres := ih pre (dictPop r.name cb) b₀ hnd' hpre
      have hfil : (r :: suf).filter (fun x => decide (x.name ∈ K)) =
          suf.filter (fun x => decide (x.name ∈ K)) := by
        simp [List.filter_cons, hk]
      have hcb : keepCb K (r :: suf) cb = keepCb K suf (dictPop r.name cb) := by
        simp [keepCb, List.foldl_cons, hk]
      rw [drop_question_ofRows pre suf r cb b₀ ig hpren, hfil, hcb]
      exact hres

/-- Counterexample to C6 as stated: `select('feeling','morning')` on the
example batch returns the questions in the requested order
`[feeling, morning]`, not in their original batch order
`[morning, feeling]`. -/
theorem select_reorders_counterexample :
    (match exampleBatch.select ["feeling", "morning"] with
     | .ok b => b.question_names
     | .error _ => []) = ["feeling", "morning"] ∧
    exampleBatch.question_names.filter
      (fun qn => qn ∈ (["feeling", "morning"] : List String)) =
      ["morning", "feeling"] ∧
    (["feeling", "morning"] : List String) ≠ ["morning", "feeling"] :=
  ⟨by decide, by decide, by decide⟩

/-- C6 (amended): `keep` preserves the original relative order of the kept
questions across all parallel arrays — its result's rows are exactly the
original rows filtered to the kept names, in lock-step — while `select`
returns the kept questions in the order its arguments are passed. -/
theorem keep_select_order (b : InputData) (K qns : List String) (ig : Bool)
    (hwf : b.wf) (hnd : b.question_names.Nodup)
    (hall : ∀ qn ∈ qns, qn ∈ b.question_names) :
    (b.keep K ig).2 = none ∧
    (b.keep K ig).1.rows = b.rows.filter (fun r => r.name ∈ K) ∧
    (b.keep K ig).1.question_names = b.question_names.filter (· ∈ K) ∧
    (b.keep K ig).1.wf ∧
    (∃ b'', b.select qns = .ok b'' ∧ b''.question_names = qns) := by
  have hmapn := rows_map_name b hwf
  have hofr := ofRows_self b hwf
  have h0 := keepGo_ofRows K ig b.rows [] b.answer_codebook b
    (by simp only [List.nil_append]; rw [hmapn]; exact hnd) (by simp)
  simp only [List.nil_append] at h0
  rw [hmapn, hofr] at h0
  have hkeep : b.keep K ig =
      (ofRows (b.rows.filter (fun r => decide (r.name ∈ K)))
        (keepCb K b.rows b.answer_codebook) b, none) := h0
  refine ⟨by rw [hkeep], ?_, ?_, by rw [hkeep]; exact wf_ofRows _ _ _, ?_⟩
  · rw [hkeep]
    exact rows_ofRows _ _ _
  · rw [hkeep]
    show (b.rows.filter (fun r => decide (r.name ∈ K))).map (·.name) = _
    rw [filter_map_comm (·.name) (fun n => decide (n ∈ K)) b.rows, hmapn]
  · have hqns : (qns.map (b.question_names.indexOf ·)).map
        (b.question_names.getD · "") = qns := by
      rw [List.map_map]
      have hpt : ∀ qn ∈ qns,
          b.question_names.getD (b.question_names.indexOf qn) "" = qn :=
        fun qn hq => getD_indexOf _ _ _ (hall qn hq)
      calc (qns.map fun qn =>
            b.question_names.getD (b.question_names.indexOf qn) "")
          = qns.map id := List.map_congr_left hpt
        _ = qns := List.map_id qns
    have hkeyset : sameKeySet ((selectCodebook b qns).map (·.1)) qns =
        true := by
      refine decide_eq_true ⟨?_, ?_⟩
      · intro k hk
        have hm := (mem_keys_selectFold qns
          (fun qn => (dictGet qn b.answer_codebook).getD []) [] k).mp hk
        simpa using hm
      · intro n hn
        exact (mem_keys_selectFold qns
          (fun qn => (dictGet qn b.answer_codebook).getD []) [] n).mpr
          (Or.inr hn)
    have h1 : codebookKeysError (some (selectCodebook b qns)) (some qns) =
        none := by
      simp [codebookKeysError, hkeyset]
    have h2 : namesTextsLengthError (some qns)
        (some ((qns.map (b.question_names.indexOf ·)).map
          (b.question_texts.getD · ""))) = none := by
      simp [namesTextsLengthError]
    have h3 : resolveQuestionNames (fun _ => true) id (some qns) [] =
        .ok qns := rfl
    unfold InputData.select
    rw [if_pos hall, hqns]
    simp only [mkInputData, h1, h2, h3]
    exact ⟨_, rfl, rfl⟩

/-- Witness for C6 (amended) on `exampleBatchCb`: keep `feeling` only, and
select in the order `[feeling, morning]`. -/
theorem keep_select_order_witness :
    (exampleBatchCb.keep ["feeling"] false).2 = none ∧
    (exampleBatchCb.keep ["feeling"] false).1.rows =
      exampleBatchCb.rows.filter
        (fun r => r.name ∈ (["feeling"] : List String)) ∧
    (exampleBatchCb.keep ["feeling"] false).1.question_names =
      exampleBatchCb.question_names.filter
        (· ∈ (["feeling"] : List String)) ∧
    (exampleBatchCb.keep ["feeling"] false).1.wf ∧
    (∃ b'', exampleBatchCb.select ["feeling", "morning"] = .ok b'' ∧
      b''.question_names = ["feeling", "morning"]) :=
  keep_select_order exampleBatchCb ["feeling"] ["feeling", "morning"] false
    (by decide) (by decide) (by decide)

/-! ### C3: construction-time validation -/

/-- Counterexample to C3 as stated: when `question_names` are provided
explicitly, duplicates are accepted — the constructor performs the
duplicate-name (and identifier) checks only on names derived from the data
file. -/
theorem construction_accepts_duplicate_names :
    mkInputData (fun _ => true) id [] [] [] (some ["a", "a"])
      (some ["t", "u"]) none none ["free_text", "free_text"] [none, none]
      (some [["1"], ["2"]]) =
      .ok { question_names := ["a", "a"], question_texts := ["t", "u"],
            question_types := ["free_text", "free_text"],
            question_options := [none, none], raw_data := [["1"], ["2"]],
            answer_codebook := [],
            question_names_to_question_text := none, errorLog := [] } ∧
    ¬ (["a", "a"] : List String).Nodup :=
  ⟨by rfl, by decide⟩

/-- C3 (amended): construction fails with a raised exception when the
codebook's key set differs from the provided question names (both
provided), when provided names and texts have different lengths (both
provided), or — for names derived from the data file — when the derived
names are duplicated or some derived name is invalid and still invalid
after one repair.  Provided names are not checked for duplicates or
validity, and repaired names are not re-checked for uniqueness. -/
theorem construction_validation (valid : String → Bool)
    (repair : String → String) (gn gt : List String)
    (graw : List (List String)) (ntqt : Option (Dict String))
    (tys : List String) (opts : List (Option (List String)))
    (rawArg : Option (List (List String))) :
    (∀ (cb : Codebook) (qns : List String) (texts : Option (List String)),
      sameKeySet (cb.map (·.1)) qns = false →
      mkInputData valid repair gn gt graw (some qns) texts ntqt (some cb)
        tys opts rawArg =
        .error
          "The keys of the answer_codebook must match the question_names.") ∧
    (∀ (qns texts : List String), qns.length ≠ texts.length →
      mkInputData valid repair gn gt graw (some qns) (some texts) ntqt none
        tys opts rawArg =
        .error
          "The question_names and question_texts must have the same length.") ∧
    (∀ (texts : Option (List String)) (cbArg : Option Codebook),
      ¬ gn.Nodup →
      mkInputData valid repair gn gt graw none texts ntqt cbArg tys opts
        rawArg = .error "Question names must be unique.") ∧
    (∀ (texts : Option (List String)) (cbArg : Option Codebook),
      gn.Nodup →
      (∃ qn ∈ gn, valid qn = false ∧ valid (repair qn) = false) →
      ∃ qn, mkInputData valid repair gn gt graw none texts ntqt cbArg tys
        opts rawArg =
        .error ("Question names must be valid Python identifiers. '" ++
          qn ++ "' is not.")) := by
  refine ⟨?_, ?_, ?_, ?_⟩
  · intro cb qns texts h
    simp [mkInputData, codebookKeysError, h]
  · intro qns texts h
    simp [mkInputData, codebookKeysError, namesTextsLengthError, h]
  · intro texts cbArg hdup
    have hchk : codebookKeysError cbArg none = none := by
      cases cbArg <;> rfl
    have hchk2 : namesTextsLengthError none texts = none := by
      cases texts <;> rfl
    have hres : resolveQuestionNames valid repair none gn =
        .error "Question names must be unique." := by
      simp [resolveQuestionNames, dedup_length_ne gn hdup]
    simp [mkInputData, hchk, hchk2, hres]
  · intro texts cbArg hnd hex
    obtain ⟨qn, hr⟩ := repairNames_error valid repair gn hex
    refine ⟨qn, ?_⟩
    have hchk : codebookKeysError cbArg none = none := by
      cases cbArg <;> rfl
    have hchk2 : namesTextsLengthError none texts = none := by
      cases texts <;> rfl
    have hres : resolveQuestionNames valid repair none gn =
        .error ("Question names must be valid Python identifiers. '" ++
          qn ++ "' is not.") := by
      have hdedup : gn.dedup.length = gn.length := by
        rw [List.dedup_eq_self.mpr hnd]
      simp [resolveQuestionNames, hdedup, hr]
    simp [mkInputData, hchk, hchk2, hres]

/-- Witness for C3 (amended): each failure mode at a concrete input, with
`valid` accepting exactly the nonempty strings. -/
theorem construction_validation_witness :
    mkInputData (fun s => !s.isEmpty) id [] [] [] (some ["y"]) none none
      (some [("x", [])]) [] [] none =
      .error
        "The keys of the answer_codebook must match the question_names." ∧
    mkInputData (fun s => !s.isEmpty) id [] [] [] (some ["y"]) (some [])
      none none [] [] none =
      .error
        "The question_names and question_texts must have the same length." ∧
    mkInputData (fun s => !s.isEmpty) id ["a", "a"] [] [] none none none
      none [] [] none = .error "Question names must be unique." ∧
    (∃ qn, mkInputData (fun s => !s.isEmpty) id [""] [] [] none none none
      none [] [] none =
      .error ("Question names must be valid Python identifiers. '" ++
        qn ++ "' is not.")) :=
  ⟨(construction_validation (fun s => !s.isEmpty) id [] [] [] none [] []
      none).1 [("x", [])] ["y"] none (by decide),
    (construction_validation (fun s => !s.isEmpty) id [] [] [] none [] []
      none).2.1 ["y"] [] (by decide),
    (construction_validation (fun s => !s.isEmpty) id ["a", "a"] [] [] none
      [] [] none).2.2.1 none none (by decide),
    (construction_validation (fun s => !s.isEmpty) id [""] [] [] none [] []
      none).2.2.2 none none (by decide) ⟨"", by decide, by decide, by decide⟩⟩

end Conjure
